import Mathlib

/-!
Shallow embedding of the CHERIoT RTOS scheduler multiwaiter
(`sdk/core/scheduler/multiwait.h`, namespace `sched`).

Machine integers are modelled as `Nat`; pointers and capability handles are
modelled as `Nat` addresses/identifiers.  Collaborators that live outside the
embedded file (thread-list walking, `Thread::ready`, capability unsealing,
queue/event-channel reset predicates) are modelled from the specification and
are marked as such in their doc comments.
-/

namespace Sched

/-- The kinds of event source a waiter slot can monitor.  The `kind` field of a
slot is a two-bit field, so besides the three named kinds there is one extra
encodable value, modelled by `other`. -/
inductive EventWaiterKind where
  | queue
  | eventChannel
  | futex
  | other
deriving DecidableEq, Repr

/-- Numeric value of a kind, used for the `1 << kind` contained-kinds bitmap. -/
def EventWaiterKind.num : EventWaiterKind → Nat
  | .queue => 0
  | .eventChannel => 1
  | .futex => 2
  | .other => 3

/-- One registered event waiter slot (`struct EventWaiter`): the monitored
source, the condition value, per-kind flags, the kind tag and the 24-bit
`readyEvents` accumulator (0 means not fired). -/
structure EventWaiter where
  eventSource : Nat
  eventValue : Nat
  flags : Nat
  kind : EventWaiterKind
  readyEvents : Nat
deriving DecidableEq, Repr

/-- The all-zero slot contents a freshly allocated slot array holds.  The C++
field initialisers clear every field except `kind`, which is left to the
zeroed allocation; kind value zero is `queue`. -/
def EventWaiter.initial : EventWaiter :=
  { eventSource := 0, eventValue := 0, flags := 0, kind := .queue,
    readyEvents := 0 }

/-- `EventWaiter::set_ready`: OR the delivered bits into `readyEvents`.  The
C++ asserts that `value` fits in the low 24 bits. -/
def EventWaiter.set_ready (w : EventWaiter) (value : Nat) : EventWaiter :=
  { w with readyEvents := w.readyEvents ||| value }

/-- `EventWaiter::has_fired`. -/
def EventWaiter.has_fired (w : EventWaiter) : Bool :=
  w.readyEvents ≠ 0

/-- `EventWaiter::reset(uint32_t *address, uint32_t value)`: the futex
(condition-word) reset.  Stores the address and expected value, clears the
slot, then compares the current memory value (`mem address`) with the
expected value; if they differ it sets `readyEvents` to the fired sentinel 1
and reports `true`. -/
def EventWaiter.resetFutex (mem : Nat → Nat) (address value : Nat) :
    Bool × EventWaiter :=
  let w : EventWaiter :=
    { eventSource := address, eventValue := value, flags := 0,
      kind := .futex, readyEvents := 0 }
  if mem address ≠ value then
    (true, w.set_ready 1)
  else
    (false, w)

/-- `EventWaiter::trigger(uint32_t *address)`: fires iff the slot is a futex
slot registered for exactly this address. -/
def EventWaiter.triggerFutex (w : EventWaiter) (address : Nat) :
    Bool × EventWaiter :=
  if w.kind ≠ .futex ∨ w.eventSource ≠ address then
    (false, w)
  else
    (true, w.set_ready 1)

/-- Modelled from the spec: `EventWaiter::reset(Queue *queue, uint32_t
conditions)` is defined in `queue.h`, which is not part of the embedded
sources.  Per the spec it stores the kind, source and condition, clears
`readyMask`, and returns whatever the source's "would this condition already
be satisfied" query reports; that query is the environment's
`queueResetFired`. -/
def EventWaiter.resetQueue (queueResetFired : Nat → Nat → Bool)
    (queue conditions : Nat) : Bool × EventWaiter :=
  (queueResetFired queue conditions,
   { eventSource := queue, eventValue := conditions, flags := 0,
     kind := .queue, readyEvents := 0 })

/-- Modelled from the spec: `EventWaiter::reset(Event *event, uint32_t bits)`
is defined in `event.h`, which is not part of the embedded sources.  Per the
spec it stores the kind, source and condition, clears `readyMask`, and
returns the source's already-satisfied report, the environment's
`eventResetFired`. -/
def EventWaiter.resetEvent (eventResetFired : Nat → Nat → Bool)
    (event bits : Nat) : Bool × EventWaiter :=
  (eventResetFired event bits,
   { eventSource := event, eventValue := bits, flags := 0,
     kind := .eventChannel, readyEvents := 0 })

/-- Upper bound on the number of waiters (`MaxMultiWaiterSize`). -/
def MaxMultiWaiterSize : Nat := 8

/-- The multiwaiter header (`class MultiWaiter`): fixed capacity `Length`,
current `usedLength`, the contained-kinds bitmap and the slot array.  The
intrusive `next` link of the pending-wake list is modelled as list
membership in the scheduler state, below. -/
structure MultiWaiter where
  Length : Nat
  usedLength : Nat
  containedKinds : Nat
  events : List EventWaiter
deriving DecidableEq, Repr

/-- Result of `MultiWaiter::create`: a fresh object, or the errno-style
failure reason. -/
inductive CreateResult where
  | ok (mw : MultiWaiter)
  | invalidArgument
  | outOfMemory
deriving DecidableEq, Repr

/-- `MultiWaiter::create(size_t length, int &error)`: rejects `length >
MaxMultiWaiterSize` with `-EINVAL`, then performs a non-blocking allocation
(modelled by the `allocSucceeds` flag), failing with `-ENOMEM` when it
fails; otherwise returns a fresh multiwaiter with `usedLength = 0`. -/
def MultiWaiter.create (length : Nat) (allocSucceeds : Bool) : CreateResult :=
  if length > MaxMultiWaiterSize then
    .invalidArgument
  else if allocSucceeds = false then
    .outOfMemory
  else
    .ok { Length := length, usedLength := 0, containedKinds := 0,
          events := List.replicate length EventWaiter.initial }

/-- Tri-state result of `MultiWaiter::set_events`. -/
inductive EventOperationResult where
  | error
  | wake
  | sleep
deriving DecidableEq, Repr

/-- A user-supplied event specification (`EventWaiterSource`): an opaque
source reference, a condition value and a kind tag. -/
structure EventWaiterSource where
  eventSource : Nat
  value : Nat
  kind : EventWaiterKind
deriving DecidableEq, Repr

/-- The collaborators consumed by registration, modelled from the spec:
capability unsealing for queues and event channels (`Handle::unseal`,
returning the validated object or nothing), the load-permission check for
raw addresses (`check_pointer<PermissionSet{Permission::Load}>`), the
current memory contents, and the per-source already-satisfied queries used
by the queue/event-channel resets. -/
structure Environment where
  unsealQueue : Nat → Option Nat
  unsealEvent : Nat → Option Nat
  hasLoadPermission : Nat → Bool
  mem : Nat → Nat
  queueResetFired : Nat → Nat → Bool
  eventResetFired : Nat → Nat → Bool

/-- The loop body of `MultiWaiter::set_events`, recursing over the remaining
specifications; `i` is the loop index and `eventTriggered` the accumulator
recording whether some slot reported already-fired.  A validation failure
returns `error` at once, leaving `usedLength` untouched; when the batch is
exhausted, `usedLength` is set to the total count. -/
def setEventsLoop (env : Environment) (mw : MultiWaiter) :
    List EventWaiterSource → Nat → Bool → EventOperationResult × MultiWaiter
  | [], i, eventTriggered =>
    (if eventTriggered then .wake else .sleep, { mw with usedLength := i })
  | s :: rest, i, eventTriggered =>
    match s.kind with
    | .other => (.error, mw)
    | .queue =>
      match env.unsealQueue s.eventSource with
      | none => (.error, mw)
      | some queue =>
        let r := EventWaiter.resetQueue env.queueResetFired queue s.value
        setEventsLoop env
          { mw with
            events := mw.events.set i r.2,
            containedKinds :=
              mw.containedKinds ||| (1 <<< EventWaiterKind.num .queue) }
          rest (i + 1) (eventTriggered || r.1)
    | .eventChannel =>
      match env.unsealEvent s.eventSource with
      | none => (.error, mw)
      | some event =>
        if s.value &&& 0xffffff = 0 then (.error, mw)
        else
          let r := EventWaiter.resetEvent env.eventResetFired event s.value
          setEventsLoop env
            { mw with
              events := mw.events.set i r.2,
              containedKinds :=
                mw.containedKinds |||
                  (1 <<< EventWaiterKind.num .eventChannel) }
            rest (i + 1) (eventTriggered || r.1)
    | .futex =>
      if env.hasLoadPermission s.eventSource = false then (.error, mw)
      else
        let r := EventWaiter.resetFutex env.mem s.eventSource s.value
        setEventsLoop env
          { mw with
            events := mw.events.set i r.2,
            containedKinds :=
              mw.containedKinds ||| (1 <<< EventWaiterKind.num .futex) }
          rest (i + 1) (eventTriggered || r.1)

/-- `MultiWaiter::set_events(EventWaiterSource *newEvents, size_t count)`:
clears the contained-kinds bitmap and runs the registration loop over the
batch. -/
def MultiWaiter.set_events (env : Environment) (mw : MultiWaiter)
    (newEvents : List EventWaiterSource) : EventOperationResult × MultiWaiter :=
  setEventsLoop env { mw with containedKinds := 0 } newEvents 0 false

/-- The validation predicate `set_events` applies to one specification: queue
references must unseal as queues; event-channel references must unseal as
event channels and carry a condition with at least one low-24 bit set; futex
addresses must have load permission; any other kind is invalid. -/
def specValid (env : Environment) (s : EventWaiterSource) : Bool :=
  match s.kind with
  | .queue => (env.unsealQueue s.eventSource).isSome
  | .eventChannel =>
    (env.unsealEvent s.eventSource).isSome && (s.value &&& 0xffffff ≠ 0)
  | .futex => env.hasLoadPermission s.eventSource
  | .other => false

/-- Whether one (valid) specification's reset reports already-fired. -/
def specFired (env : Environment) (s : EventWaiterSource) : Bool :=
  match s.kind with
  | .queue =>
    match env.unsealQueue s.eventSource with
    | some queue => env.queueResetFired queue s.value
    | none => false
  | .eventChannel =>
    match env.unsealEvent s.eventSource with
    | some event => env.eventResetFired event s.value
    | none => false
  | .futex => env.mem s.eventSource ≠ s.value
  | .other => false

/-- One step of the slot scan inside `MultiWaiter::trigger`: apply the source's
per-slot trigger to the first `n` slots of the array, OR-ing together the
per-slot fired results.  `slotTrig` stands for the per-slot trigger of the
concrete source being delivered (for futexes, `EventWaiter.triggerFutex`
applied to the triggering address). -/
def triggerSlots (slotTrig : EventWaiter → Bool × EventWaiter) :
    List EventWaiter → Nat → Bool × List EventWaiter
  | [], _ => (false, [])
  | w :: ws, 0 => (false, w :: ws)
  | w :: ws, n + 1 =>
    let r := slotTrig w
    let rs := triggerSlots slotTrig ws n
    (r.1 || rs.1, r.2 :: rs.2)

/-- `MultiWaiter::trigger(T *source, uint32_t info)`: if the contained-kinds
bitmap lacks the triggering source's kind, return `false` without visiting
any slot; otherwise deliver the source's per-slot trigger to every slot in
`[0, usedLength)` and report whether any fired. -/
def MultiWaiter.triggerWith (mw : MultiWaiter) (srcKind : EventWaiterKind)
    (slotTrig : EventWaiter → Bool × EventWaiter) : Bool × MultiWaiter :=
  if mw.containedKinds &&& (1 <<< srcKind.num) = 0 then
    (false, mw)
  else
    let r := triggerSlots slotTrig mw.events mw.usedLength
    (r.1, { mw with events := r.2 })

/-- Wake reasons recorded by `Thread::ready` (`Thread::WakeReason`); only the
two used by this core are distinguished. -/
inductive WakeReason where
  | timer
  | multiWaiter
  | other
deriving DecidableEq, Repr

/-- The scheduler-global state the multiwaiter code manipulates: the
multiwaiter objects (keyed by identifier), the pending-wake list
(`wokenMultiwaiters`, the intrusive `next` chain, as a list of multiwaiter
identifiers), the priority-sorted sleeping-thread list (`threads`, as a list
of thread identifiers), each thread's recorded multiwaiter reference
(`thread->multiWaiter`, `none` for null), each thread's ready flag and its
recorded wake reason. -/
structure SchedState where
  mws : Nat → MultiWaiter
  pendingWake : List Nat
  sleeping : List Nat
  threadMW : Nat → Option Nat
  ready : Nat → Bool
  wakeReason : Nat → WakeReason

/-- Modelled from the spec: `Thread::ready(reason)` is defined in `thread.h`,
which is not part of the embedded sources.  Per the spec it marks the thread
ready, removing it from the sleeping-thread list, and records the wake
reason. -/
def threadReady (s : SchedState) (tid : Nat) (reason : WakeReason) :
    SchedState :=
  { s with
    sleeping := s.sleeping.filter (fun t => t ≠ tid),
    ready := fun t => if t = tid then true else s.ready t,
    wakeReason := fun t => if t = tid then reason else s.wakeReason t }

/-- `MultiWaiter::remove_from_pending_wake_list`: walk the
`wokenMultiwaiters` chain and splice this object out if present (a no-op
when it is not linked). -/
def removeFromPendingWake (s : SchedState) (mwid : Nat) : SchedState :=
  { s with pendingWake := s.pendingWake.erase mwid }

/-- The body of the thread-list walk in `MultiWaiter::~MultiWaiter`: for one
visited thread, if its recorded multiwaiter is the object being destroyed,
clear the reference and mark the thread ready with `WakeReason::Timer`. -/
def destroyVisit (mwid : Nat) (s : SchedState) (tid : Nat) : SchedState :=
  if s.threadMW tid = some mwid then
    threadReady
      { s with threadMW := fun t => if t = tid then none else s.threadMW t }
      tid .timer
  else
    s

/-- `MultiWaiter::~MultiWaiter`: unlink from the pending-wake list, then walk
the sleeping-thread list (`Thread::walk_thread_list`, modelled from the spec
as visiting each thread of the list in order) applying `destroyVisit`. -/
def MultiWaiter.destroy (s : SchedState) (mwid : Nat) : SchedState :=
  let s1 := removeFromPendingWake s mwid
  s1.sleeping.foldl (destroyVisit mwid) s1

/-- `MultiWaiter::get_results(EventWaiterSource *newEvents, size_t count)`:
unlink from the pending-wake list, then (under the fatal assertion
`count <= Length`, modelled as `none`) copy each of the first `count` slots'
`readyEvents` into the output array and report whether any was nonzero. -/
def MultiWaiter.get_results (s : SchedState) (mwid count : Nat) :
    Option (SchedState × List Nat × Bool) :=
  let s1 := removeFromPendingWake s mwid
  let mw := s1.mws mwid
  if count > mw.Length then
    none
  else
    let out := (List.range count).map
      (fun i => (mw.events.getD i EventWaiter.initial).readyEvents)
    some (s1, out, out.any (fun v => v ≠ 0))

/-- One visit of the pending-wake walk in `MultiWaiter::wake_waiters`:
deliver the trigger to the visited multiwaiter, ignoring the fired
result. -/
def pendingStep (srcKind : EventWaiterKind)
    (slotTrig : EventWaiter → Bool × EventWaiter) (st : SchedState)
    (mwid : Nat) : SchedState :=
  { st with
    mws := fun m =>
      if m = mwid then ((st.mws mwid).triggerWith srcKind slotTrig).2
      else st.mws m }

/-- The first phase of `MultiWaiter::wake_waiters`: walk the pending-wake
list and deliver the trigger to each multiwaiter on it, unconditionally —
no thread is marked ready and nothing is counted. -/
def triggerPendingPhase (s : SchedState) (srcKind : EventWaiterKind)
    (slotTrig : EventWaiter → Bool × EventWaiter) : SchedState :=
  s.pendingWake.foldl (pendingStep srcKind slotTrig) s

/-- The second phase of `MultiWaiter::wake_waiters`: walk the sleeping-thread
list in list order (the walk's termination condition `woken >= maxWakes` is
checked before each visit, modelled from the spec's early-stop wording); for
each visited thread deliver the trigger to its recorded multiwaiter, and if
it fires mark the thread ready with `WakeReason::MultiWaiter`, count it, and
push the multiwaiter onto the pending-wake list.  The C++ dereferences
`thread->multiWaiter` unconditionally, relying on the sleeping-reference
invariant; a thread with no recorded multiwaiter is modelled as not firing. -/
def wakeLoop (srcKind : EventWaiterKind)
    (slotTrig : EventWaiter → Bool × EventWaiter) (maxWakes : Nat) :
    List Nat → SchedState → Nat → SchedState × Nat
  | [], st, woken => (st, woken)
  | tid :: rest, st, woken =>
    if woken ≥ maxWakes then
      (st, woken)
    else
      match st.threadMW tid with
      | none => wakeLoop srcKind slotTrig maxWakes rest st woken
      | some mwid =>
        let r := (st.mws mwid).triggerWith srcKind slotTrig
        let st1 : SchedState :=
          { st with mws := fun m => if m = mwid then r.2 else st.mws m }
        if r.1 then
          let st2 := threadReady st1 tid .multiWaiter
          let st3 : SchedState :=
            { st2 with pendingWake := mwid :: st2.pendingWake }
          wakeLoop srcKind slotTrig maxWakes rest st3 (woken + 1)
        else
          wakeLoop srcKind slotTrig maxWakes rest st1 woken

/-- `MultiWaiter::wake_waiters(T *source, uint32_t info, uint32_t maxWakes)`:
first trigger every multiwaiter on the pending-wake list, then walk the
sleeping-thread list waking at most `maxWakes` threads whose multiwaiter's
trigger fires; returns the updated state and the woken count. -/
def wake_waiters (s : SchedState) (srcKind : EventWaiterKind)
    (slotTrig : EventWaiter → Bool × EventWaiter) (maxWakes : Nat) :
    SchedState × Nat :=
  let s1 := triggerPendingPhase s srcKind slotTrig
  wakeLoop srcKind slotTrig maxWakes s1.sleeping s1 0

/-- The first half of `MultiWaiter::wait(Timeout *timeout)`: record the
multiwaiter on the calling thread and suspend it on the sleeping-thread
list (`Thread::suspend`, modelled from the spec as placing the thread on
the list; the priority-ordered insertion position is abstracted by placing
it at the front — the theorems quantify over arbitrary list contents). -/
def waitEnter (s : SchedState) (tid mwid : Nat) : SchedState :=
  { s with
    threadMW := fun t => if t = tid then some mwid else s.threadMW t,
    sleeping := tid :: s.sleeping }

/-- The second half of `MultiWaiter::wait`: after the thread resumes (it has
already been removed from the sleeping-thread list by whatever woke it),
clear its recorded multiwaiter reference. -/
def waitExit (s : SchedState) (tid : Nat) : SchedState :=
  { s with threadMW := fun t => if t = tid then none else s.threadMW t }

/-- Whether a thread's recorded multiwaiter would fire if the sleeping-list
walk of `wake_waiters` delivered the trigger to it in state `st`: a thread
without a recorded multiwaiter never fires. -/
def eligible (st : SchedState) (srcKind : EventWaiterKind)
    (slotTrig : EventWaiter → Bool × EventWaiter) (t : Nat) : Bool :=
  match st.threadMW t with
  | none => false
  | some m => ((st.mws m).triggerWith srcKind slotTrig).1

/-- The specification-side description of which threads the sleeping-list
walk wakes, following the spec's wording: walk the list in order, select
every eligible thread, and stop once the counter (starting from `n`)
reaches `maxWakes`.  It is compared with the embedded walk in the
`wake_waiters` theorem. -/
def eligibleSelect (maxWakes : Nat) (elig : Nat → Bool) :
    List Nat → Nat → List Nat
  | [], _ => []
  | t :: rest, n =>
    if n ≥ maxWakes then []
    else if elig t then t :: eligibleSelect maxWakes elig rest (n + 1)
    else eligibleSelect maxWakes elig rest n

/-- The sleeping-reference invariant: every thread on the sleeping-thread
list has a non-null recorded multiwaiter reference.  Stated as a decidable
scan of the list so it can be evaluated on concrete states. -/
def sleepInvB (s : SchedState) : Bool :=
  s.sleeping.all (fun tid => (s.threadMW tid).isSome)

/-- An environment in which every reference fails validation. -/
def envAllInvalid : Environment :=
  { unsealQueue := fun _ => none, unsealEvent := fun _ => none,
    hasLoadPermission := fun _ => false, mem := fun _ => 0,
    queueResetFired := fun _ _ => false, eventResetFired := fun _ _ => false }

/-- An environment in which every raw address has load permission and every
memory word currently holds 7; queue and event-channel references do not
unseal. -/
def envFutexOnly : Environment :=
  { unsealQueue := fun _ => none, unsealEvent := fun _ => none,
    hasLoadPermission := fun _ => true, mem := fun _ => 7,
    queueResetFired := fun _ _ => false, eventResetFired := fun _ _ => false }

/-- A two-slot multiwaiter with nothing registered. -/
def mwEx : MultiWaiter :=
  { Length := 2, usedLength := 0, containedKinds := 0,
    events := [EventWaiter.initial, EventWaiter.initial] }

/-- A concrete scheduler state: thread 0 is asleep on multiwaiter 5, and
every multiwaiter identifier denotes `mwEx`. -/
def stEx : SchedState :=
  { mws := fun _ => mwEx, pendingWake := [], sleeping := [0],
    threadMW := fun t => if t = 0 then some 5 else none,
    ready := fun _ => false, wakeReason := fun _ => .other }

/-- A concrete scheduler state used to exercise `wake_waiters`: thread 0 is
asleep on multiwaiter 5, whose single slot is a futex slot watching
address 9. -/
def stWake : SchedState :=
  { mws := fun _ =>
      { Length := 1, usedLength := 1,
        containedKinds := 1 <<< EventWaiterKind.num .futex,
        events := [{ eventSource := 9, eventValue := 7, flags := 0,
                     kind := .futex, readyEvents := 0 }] },
    pendingWake := [], sleeping := [0],
    threadMW := fun t => if t = 0 then some 5 else none,
    ready := fun _ => false, wakeReason := fun _ => .other }

/-! ## Theorems -/

/-- C6: a condition-word (futex) reset whose current memory value differs
from the expected value sets the slot's `readyEvents` to the fired sentinel
1 and reports fired immediately; when the values are equal it leaves
`readyEvents` at 0 and reports not fired. -/
theorem resetFutex_fires_iff_value_differs (mem : Nat → Nat)
    (address value : Nat) :
    (mem address ≠ value →
      (EventWaiter.resetFutex mem address value).1 = true ∧
      (EventWaiter.resetFutex mem address value).2.readyEvents = 1) ∧
    (mem address = value →
      (EventWaiter.resetFutex mem address value).1 = false ∧
      (EventWaiter.resetFutex mem address value).2.readyEvents = 0) := by
  by_cases h : mem address = value <;>
    simp [EventWaiter.resetFutex, EventWaiter.set_ready, h]

/-- Witness for C6 at a concrete input: memory holds 7 at address 0, the
expected value is 5, so the reset fires with `readyEvents = 1`. -/
theorem resetFutex_fires_iff_value_differs_witness :
    (EventWaiter.resetFutex (fun _ => 7) 0 5).1 = true ∧
    (EventWaiter.resetFutex (fun _ => 7) 0 5).2.readyEvents = 1 :=
  (resetFutex_fires_iff_value_differs (fun _ => 7) 0 5).1 (by decide)

/-- C7: triggering a multiwaiter with a source whose kind is absent from the
contained-kinds bitmap returns `false` and leaves the whole object — in
particular every slot — unchanged, no matter what the per-slot trigger
would have done. -/
theorem triggerWith_absent_kind_frame (mw : MultiWaiter)
    (srcKind : EventWaiterKind)
    (slotTrig : EventWaiter → Bool × EventWaiter)
    (h : mw.containedKinds &&& (1 <<< srcKind.num) = 0) :
    mw.triggerWith srcKind slotTrig = (false, mw) := by
  simp [MultiWaiter.triggerWith, h]

/-- Witness for C7 at a concrete input: a multiwaiter containing only futex
slots (bitmap `1 << 2 = 4`) triggered by a queue-kind source, with an
instrumented per-slot trigger that would otherwise fire. -/
theorem triggerWith_absent_kind_frame_witness :
    MultiWaiter.triggerWith
        { Length := 1, usedLength := 1, containedKinds := 4,
          events := [EventWaiter.initial] }
        .queue (fun w => (true, w.set_ready 2)) =
      (false,
        { Length := 1, usedLength := 1, containedKinds := 4,
          events := [EventWaiter.initial] }) :=
  triggerWith_absent_kind_frame _ _ _ (by decide)

/-- Counterexample to C4 as stated: capacity 0 lies outside 1..8, yet
`create(0)` does not fail with `InvalidArgument` — the code only rejects
lengths greater than 8. -/
theorem create_zero_not_invalidArgument :
    MultiWaiter.create 0 true ≠ CreateResult.invalidArgument := by
  decide

/-- C4 (amended): for every capacity of at most 8 — including 0 — `create`
succeeds absent allocation failure and returns a fresh multiwaiter with
`usedLength = 0`; for every capacity greater than 8 it fails with
`InvalidArgument`; when the non-blocking allocation fails it fails with
`OutOfMemory`. -/
theorem create_spec (length : Nat) (allocSucceeds : Bool) :
    (length ≤ MaxMultiWaiterSize → allocSucceeds = true →
      ∃ mw, MultiWaiter.create length allocSucceeds = .ok mw ∧
        mw.usedLength = 0 ∧ mw.Length = length ∧ mw.containedKinds = 0) ∧
    (length > MaxMultiWaiterSize →
      MultiWaiter.create length allocSucceeds = .invalidArgument) ∧
    (length ≤ MaxMultiWaiterSize → allocSucceeds = false →
      MultiWaiter.create length allocSucceeds = .outOfMemory) := by
  refine ⟨fun h ha => ?_, fun h => ?_, fun h ha => ?_⟩
  · refine ⟨{ Length := length, usedLength := 0, containedKinds := 0,
              events := List.replicate length EventWaiter.initial },
      by simp [MultiWaiter.create, Nat.not_lt.mpr h, ha], rfl, rfl, rfl⟩
  · simp [MultiWaiter.create, h]
  · simp [MultiWaiter.create, Nat.not_lt.mpr h, ha]

/-- Witness for C4 (amended) at a concrete input: capacity 3 with a
successful allocation yields a multiwaiter with `usedLength = 0`. -/
theorem create_spec_witness :
    ∃ mw, MultiWaiter.create 3 true = .ok mw ∧
      mw.usedLength = 0 ∧ mw.Length = 3 ∧ mw.containedKinds = 0 :=
  (create_spec 3 true).1 (by decide) rfl

/-- C8: `get_results` with `count ≤ capacity` unlinks the multiwaiter from
the pending-wake list (touching nothing else in the scheduler state),
copies slot `i`'s `readyEvents` into output position `i` for every
`i < count`, and reports `true` exactly when one of those values is
nonzero; `count > capacity` hits the fatal assertion instead of returning. -/
theorem get_results_spec (s : SchedState) (mwid count : Nat) :
    (count ≤ (s.mws mwid).Length →
      ∃ r, MultiWaiter.get_results s mwid count = some r ∧
        r.1.pendingWake = s.pendingWake.erase mwid ∧
        r.1.mws = s.mws ∧ r.1.sleeping = s.sleeping ∧
        r.1.threadMW = s.threadMW ∧ r.1.ready = s.ready ∧
        r.2.1.length = count ∧
        (∀ i < count, r.2.1.getD i 0 =
          ((s.mws mwid).events.getD i EventWaiter.initial).readyEvents) ∧
        (r.2.2 = true ↔ ∃ i < count,
          ((s.mws mwid).events.getD i EventWaiter.initial).readyEvents ≠ 0)) ∧
    ((s.mws mwid).Length < count →
      MultiWaiter.get_results s mwid count = none) := by
  constructor
  · intro h
    refine ⟨(removeFromPendingWake s mwid,
             (List.range count).map
               (fun i =>
                 ((s.mws mwid).events.getD i EventWaiter.initial).readyEvents),
             ((List.range count).map
               (fun i =>
                 ((s.mws mwid).events.getD i
                   EventWaiter.initial).readyEvents)).any
               (fun v => v ≠ 0)),
      ?_, rfl, rfl, rfl, rfl, rfl, ?_, ?_, ?_⟩
    · simp [MultiWaiter.get_results, removeFromPendingWake, Nat.not_lt.mpr h]
    · simp
    · intro i hi
      simp [List.getD_eq_getElem?_getD, List.getElem?_map, List.getElem?_range,
        hi]
    · simp [List.any_eq_true, List.mem_map, List.mem_range]
  · intro h
    simp [MultiWaiter.get_results, removeFromPendingWake, h]

/-- Witness for C8 at a concrete input: `stEx` has two empty slots in every
multiwaiter; collecting two results from multiwaiter 5 succeeds, returns
two zero masks and reports that nothing fired. -/
theorem get_results_spec_witness :
    ∃ r, MultiWaiter.get_results stEx 5 2 = some r ∧
      r.1.pendingWake = stEx.pendingWake.erase 5 ∧
      r.1.mws = stEx.mws ∧ r.1.sleeping = stEx.sleeping ∧
      r.1.threadMW = stEx.threadMW ∧ r.1.ready = stEx.ready ∧
      r.2.1.length = 2 ∧
      (∀ i < 2, r.2.1.getD i 0 =
        ((stEx.mws 5).events.getD i EventWaiter.initial).readyEvents) ∧
      (r.2.2 = true ↔ ∃ i < 2,
        ((stEx.mws 5).events.getD i EventWaiter.initial).readyEvents ≠ 0) :=
  (get_results_spec stEx 5 2).1 (by decide)

/-- If the head of a batch is valid, an invalid spec exists in the whole
batch exactly when one exists in the tail. -/
lemma exists_invalid_cons_of_valid {env : Environment}
    {s : EventWaiterSource} {rest : List EventWaiterSource}
    (hv : specValid env s = true) :
    (∃ t ∈ s :: rest, specValid env t = false) ↔
      ∃ t ∈ rest, specValid env t = false := by
  constructor
  · rintro ⟨t, ht, htv⟩
    rcases List.mem_cons.mp ht with h1 | h2
    · subst h1; rw [hv] at htv; cases htv
    · exact ⟨t, h2, htv⟩
  · rintro ⟨t, ht, htv⟩
    exact ⟨t, List.mem_cons_of_mem _ ht, htv⟩

/-- An invalid head yields an invalid spec of the whole batch. -/
lemma exists_invalid_cons_of_invalid {env : Environment}
    {s : EventWaiterSource} {rest : List EventWaiterSource}
    (hv : specValid env s = false) :
    ∃ t ∈ s :: rest, specValid env t = false :=
  ⟨s, List.mem_cons_self _ _, hv⟩

/-- The fired component of a futex reset, as a decidable comparison. -/
lemma resetFutex_fst (mem : Nat → Nat) (address value : Nat) :
    (EventWaiter.resetFutex mem address value).1 =
      decide (mem address ≠ value) := by
  by_cases h : mem address = value <;> simp [EventWaiter.resetFutex, h]

/-- The registration loop reports `error` exactly when some remaining spec
fails validation. -/
lemma setEventsLoop_error_iff (env : Environment) :
    ∀ (specs : List EventWaiterSource) (mw : MultiWaiter) (i : Nat)
      (acc : Bool),
      (setEventsLoop env mw specs i acc).1 = .error ↔
        ∃ s ∈ specs, specValid env s = false := by
  intro specs
  induction specs with
  | nil =>
    intro mw i acc
    constructor
    · intro h
      by_cases hacc : acc <;> simp [setEventsLoop, hacc] at h
    · rintro ⟨s, hs, -⟩
      exact absurd hs (List.not_mem_nil s)
  | cons s rest ih =>
    intro mw i acc
    obtain ⟨src, val, k⟩ := s
    cases k with
    | queue =>
      cases hq : env.unsealQueue src with
      | none =>
        have hv : specValid env ⟨src, val, .queue⟩ = false := by
          simp [specValid, hq]
        simp only [setEventsLoop, hq]
        exact iff_of_true trivial (exists_invalid_cons_of_invalid hv)
      | some queue =>
        have hv : specValid env ⟨src, val, .queue⟩ = true := by
          simp [specValid, hq]
        simp only [setEventsLoop, hq]
        exact (ih _ _ _).trans (exists_invalid_cons_of_valid hv).symm
    | eventChannel =>
      cases hq : env.unsealEvent src with
      | none =>
        have hv : specValid env ⟨src, val, .eventChannel⟩ = false := by
          simp [specValid, hq]
        simp only [setEventsLoop, hq]
        exact iff_of_true trivial (exists_invalid_cons_of_invalid hv)
      | some event =>
        by_cases hz : val &&& 0xffffff = 0
        · have hv : specValid env ⟨src, val, .eventChannel⟩ = false := by
            simp [specValid, hq, hz]
          simp only [setEventsLoop, hq, if_pos hz]
          exact iff_of_true trivial (exists_invalid_cons_of_invalid hv)
        · have hv : specValid env ⟨src, val, .eventChannel⟩ = true := by
            simp [specValid, hq, hz]
          simp only [setEventsLoop, hq, if_neg hz]
          exact (ih _ _ _).trans (exists_invalid_cons_of_valid hv).symm
    | futex =>
      by_cases hp : env.hasLoadPermission src = false
      · have hv : specValid env ⟨src, val, .futex⟩ = false := by
          simpa [specValid] using hp
        simp only [setEventsLoop, if_pos hp]
        exact iff_of_true trivial (exists_invalid_cons_of_invalid hv)
      · have hv : specValid env ⟨src, val, .futex⟩ = true := by
          simpa [specValid, Bool.not_eq_false] using hp
        simp only [setEventsLoop, if_neg hp]
        exact (ih _ _ _).trans (exists_invalid_cons_of_valid hv).symm
    | other =>
      have hv : specValid env ⟨src, val, .other⟩ = false := by
        simp [specValid]
      simp only [setEventsLoop]
      exact iff_of_true trivial (exists_invalid_cons_of_invalid hv)

/-- When the registration loop fails, it returns the multiwaiter with the
`usedLength` it entered with. -/
lemma setEventsLoop_error_usedLength (env : Environment) :
    ∀ (specs : List EventWaiterSource) (mw : MultiWaiter) (i : Nat)
      (acc : Bool),
      (setEventsLoop env mw specs i acc).1 = .error →
        (setEventsLoop env mw specs i acc).2.usedLength = mw.usedLength := by
  intro specs
  induction specs with
  | nil =>
    intro mw i acc h
    by_cases hacc : acc <;> simp [setEventsLoop, hacc] at h
  | cons s rest ih =>
    intro mw i acc h
    obtain ⟨src, val, k⟩ := s
    cases k with
    | queue =>
      cases hq : env.unsealQueue src with
      | none => simp only [setEventsLoop, hq]
      | some queue =>
        simp only [setEventsLoop, hq] at h ⊢
        exact ih _ _ _ h
    | eventChannel =>
      cases hq : env.unsealEvent src with
      | none => simp only [setEventsLoop, hq]
      | some event =>
        by_cases hz : val &&& 0xffffff = 0
        · simp only [setEventsLoop, hq, if_pos hz]
        · simp only [setEventsLoop, hq, if_neg hz] at h ⊢
          exact ih _ _ _ h
    | futex =>
      by_cases hp : env.hasLoadPermission src = false
      · simp only [setEventsLoop, if_pos hp]
      · simp only [setEventsLoop, if_neg hp] at h ⊢
        exact ih _ _ _ h
    | other => simp only [setEventsLoop]

/-- When every remaining spec is valid, the registration loop succeeds:
it reports `wake` exactly when the accumulator or some remaining reset
fired, sets `usedLength` to the final index, and ORs every remaining kind
into the contained-kinds bitmap. -/
lemma setEventsLoop_success (env : Environment) :
    ∀ (specs : List EventWaiterSource) (mw : MultiWaiter) (i : Nat)
      (acc : Bool), specs.all (specValid env) = true →
      (setEventsLoop env mw specs i acc).1 =
        (if acc || specs.any (specFired env) then .wake else .sleep) ∧
      (setEventsLoop env mw specs i acc).2.usedLength = i + specs.length ∧
      (setEventsLoop env mw specs i acc).2.containedKinds =
        specs.foldl (fun a t => a ||| (1 <<< t.kind.num))
          mw.containedKinds := by
  intro specs
  induction specs with
  | nil =>
    intro mw i acc _
    simp [setEventsLoop]
  | cons s rest ih =>
    intro mw i acc hall
    have hv : specValid env s = true := by
      have := List.all_eq_true.mp hall s (List.mem_cons_self _ _)
      simpa using this
    have hrest : rest.all (specValid env) = true := by
      rw [List.all_eq_true]
      intro t ht
      exact List.all_eq_true.mp hall t (List.mem_cons_of_mem _ ht)
    obtain ⟨src, val, k⟩ := s
    cases k with
    | queue =>
      cases hq : env.unsealQueue src with
      | none => simp [specValid, hq] at hv
      | some queue =>
        have hfired : (EventWaiter.resetQueue env.queueResetFired queue
            val).1 = specFired env ⟨src, val, .queue⟩ := by
          simp [EventWaiter.resetQueue, specFired, hq]
        simp only [setEventsLoop, hq]
        obtain ⟨h1, h2, h3⟩ := ih _ (i + 1) _ hrest
        refine ⟨?_, ?_, ?_⟩
        · rw [h1, hfired]
          simp [List.any_cons, Bool.or_assoc]
        · rw [h2, List.length_cons]; omega
        · rw [h3]; rfl
    | eventChannel =>
      cases hq : env.unsealEvent src with
      | none => simp [specValid, hq] at hv
      | some event =>
        have hz : ¬ val &&& 0xffffff = 0 := by
          intro hz
          simp [specValid, hq, hz] at hv
        have hfired : (EventWaiter.resetEvent env.eventResetFired event
            val).1 = specFired env ⟨src, val, .eventChannel⟩ := by
          simp [EventWaiter.resetEvent, specFired, hq]
        simp only [setEventsLoop, hq, if_neg hz]
        obtain ⟨h1, h2, h3⟩ := ih _ (i + 1) _ hrest
        refine ⟨?_, ?_, ?_⟩
        · rw [h1, hfired]
          simp [List.any_cons, Bool.or_assoc]
        · rw [h2, List.length_cons]; omega
        · rw [h3]; rfl
    | futex =>
      have hp : ¬ env.hasLoadPermission src = false := by
        intro hp
        simp [specValid, hp] at hv
      have hfired : (EventWaiter.resetFutex env.mem src val).1 =
          specFired env ⟨src, val, .futex⟩ := by
        rw [resetFutex_fst]; rfl
      simp only [setEventsLoop, if_neg hp]
      obtain ⟨h1, h2, h3⟩ := ih _ (i + 1) _ hrest
      refine ⟨?_, ?_, ?_⟩
      · rw [h1, hfired]
        simp [List.any_cons, Bool.or_assoc]
      · rw [h2, List.length_cons]; omega
      · rw [h3]; rfl
    | other => simp [specValid] at hv

/-- C3: `set_events` returns `Error` exactly when some spec in the batch
fails validation — a queue spec that fails unsealing, an event-channel spec
that fails unsealing or whose condition has all low 24 bits clear, a
condition-word spec without load permission, or a spec of any other kind. -/
theorem set_events_error_iff (env : Environment) (mw : MultiWaiter)
    (specs : List EventWaiterSource) :
    (MultiWaiter.set_events env mw specs).1 = .error ↔
      ∃ s ∈ specs, specValid env s = false :=
  setEventsLoop_error_iff env specs _ 0 false

/-- Witness for C3 at a concrete input: a batch holding one queue spec whose
reference does not unseal makes `set_events` fail with `Error`. -/
theorem set_events_error_iff_witness :
    (MultiWaiter.set_events envAllInvalid mwEx
      [{ eventSource := 0, value := 1, kind := .queue }]).1 = .error :=
  (set_events_error_iff envAllInvalid mwEx _).mpr
    ⟨{ eventSource := 0, value := 1, kind := .queue },
     List.mem_cons_self _ _, by decide⟩

/-- C5: when every spec in the batch validates, `set_events` sets
`usedLength` to the batch size, returns `Wake` exactly when some slot's
reset reported already-fired (and `Sleep` otherwise, never `Error`), and
the contained-kinds bitmap is the OR of `1 << kind` over every spec of the
batch, fired or not. -/
theorem set_events_success_spec (env : Environment) (mw : MultiWaiter)
    (specs : List EventWaiterSource)
    (h : specs.all (specValid env) = true) :
    (MultiWaiter.set_events env mw specs).2.usedLength = specs.length ∧
    ((MultiWaiter.set_events env mw specs).1 = .wake ↔
      ∃ s ∈ specs, specFired env s = true) ∧
    ((MultiWaiter.set_events env mw specs).1 = .wake ∨
      (MultiWaiter.set_events env mw specs).1 = .sleep) ∧
    (MultiWaiter.set_events env mw specs).2.containedKinds =
      specs.foldl (fun a t => a ||| (1 <<< t.kind.num)) 0 := by
  obtain ⟨h1, h2, h3⟩ :=
    setEventsLoop_success env specs { mw with containedKinds := 0 } 0 false h
  have h1' : (MultiWaiter.set_events env mw specs).1 =
      (if specs.any (specFired env) then .wake else .sleep) := by
    simpa using h1
  refine ⟨by simpa using h2, ?_, ?_, by simpa using h3⟩
  · rw [h1']
    constructor
    · intro hw
      by_cases ha : specs.any (specFired env) = true
      · exact List.any_eq_true.mp ha
      · simp [ha] at hw
    · rintro ⟨t, ht, htf⟩
      have ha : specs.any (specFired env) = true :=
        List.any_eq_true.mpr ⟨t, ht, htf⟩
      simp [ha]
  · rw [h1']
    by_cases ha : specs.any (specFired env) = true <;> simp [ha]

/-- Witness for C5 at a concrete input: registering one valid futex spec
whose watched word (7) differs from the expected value (5) gives
`usedLength = 1`. -/
theorem set_events_success_spec_witness :
    ([{ eventSource := 9, value := 5, kind := .futex }] :
      List EventWaiterSource).all (specValid envFutexOnly) = true ∧
    (MultiWaiter.set_events envFutexOnly mwEx
      [{ eventSource := 9, value := 5, kind := .futex }]).2.usedLength = 1 :=
  ⟨by decide,
   (set_events_success_spec envFutexOnly mwEx _ (by decide)).1⟩

/-- C9: a failed registration leaves `usedLength` exactly as it was before
the call — the aborted batch is never counted as registered. -/
theorem set_events_error_preserves_usedLength (env : Environment)
    (mw : MultiWaiter) (specs : List EventWaiterSource)
    (h : (MultiWaiter.set_events env mw specs).1 = .error) :
    (MultiWaiter.set_events env mw specs).2.usedLength = mw.usedLength :=
  setEventsLoop_error_usedLength env specs _ 0 false h

/-- Witness for C9 at a concrete input: a failing batch against a
multiwaiter with `usedLength = 0` leaves `usedLength = 0`. -/
theorem set_events_error_preserves_usedLength_witness :
    (MultiWaiter.set_events envAllInvalid mwEx
      [{ eventSource := 0, value := 1, kind := .futex }]).1 = .error ∧
    (MultiWaiter.set_events envAllInvalid mwEx
      [{ eventSource := 0, value := 1, kind := .futex }]).2.usedLength =
      mwEx.usedLength :=
  ⟨by decide,
   set_events_error_preserves_usedLength envAllInvalid mwEx _ (by decide)⟩

/-- One destructor visit never changes the pending-wake list. -/
lemma destroyVisit_pendingWake (mwid : Nat) (st : SchedState) (t : Nat) :
    (destroyVisit mwid st t).pendingWake = st.pendingWake := by
  by_cases hc : st.threadMW t = some mwid <;>
    simp [destroyVisit, threadReady, hc]

/-- The whole destructor walk never changes the pending-wake list. -/
lemma destroyFold_pendingWake (mwid : Nat) (l : List Nat) :
    ∀ st : SchedState,
      (l.foldl (destroyVisit mwid) st).pendingWake = st.pendingWake := by
  induction l with
  | nil => intro st; rfl
  | cons t rest ih =>
    intro st
    rw [List.foldl_cons, ih, destroyVisit_pendingWake]

/-- What one destructor visit does to a thread's recorded multiwaiter. -/
lemma destroyVisit_threadMW (mwid : Nat) (st : SchedState) (t tid : Nat) :
    (destroyVisit mwid st t).threadMW tid =
      if st.threadMW t = some mwid ∧ tid = t then none
      else st.threadMW tid := by
  by_cases hc : st.threadMW t = some mwid
  · by_cases ht : tid = t <;> simp [destroyVisit, threadReady, hc, ht]
  · simp [destroyVisit, hc]

/-- What one destructor visit does to a thread's ready flag. -/
lemma destroyVisit_ready (mwid : Nat) (st : SchedState) (t tid : Nat) :
    (destroyVisit mwid st t).ready tid =
      if st.threadMW t = some mwid ∧ tid = t then true
      else st.ready tid := by
  by_cases hc : st.threadMW t = some mwid
  · by_cases ht : tid = t <;> simp [destroyVisit, threadReady, hc, ht]
  · simp [destroyVisit, hc]

/-- What one destructor visit does to a thread's recorded wake reason. -/
lemma destroyVisit_wakeReason (mwid : Nat) (st : SchedState) (t tid : Nat) :
    (destroyVisit mwid st t).wakeReason tid =
      if st.threadMW t = some mwid ∧ tid = t then .timer
      else st.wakeReason tid := by
  by_cases hc : st.threadMW t = some mwid
  · by_cases ht : tid = t <;> simp [destroyVisit, threadReady, hc, ht]
  · simp [destroyVisit, hc]

/-- The destructor walk never creates a multiwaiter reference: any reference
present afterwards was present before. -/
lemma destroyFold_threadMW_mono (mwid : Nat) (l : List Nat) :
    ∀ (st : SchedState) (tid m : Nat),
      (l.foldl (destroyVisit mwid) st).threadMW tid = some m →
        st.threadMW tid = some m := by
  induction l with
  | nil => intro st tid m h; exact h
  | cons t rest ih =>
    intro st tid m h
    have h2 := ih _ _ _ h
    rw [destroyVisit_threadMW] at h2
    by_cases hc : st.threadMW t = some mwid ∧ tid = t
    · rw [if_pos hc] at h2; cases h2
    · rwa [if_neg hc] at h2

/-- Any thread the destructor walk reaches whose reference it has already
cleared — or any thread on the remaining list still referencing the dying
multiwaiter — ends the walk with a cleared reference, the ready flag set and
the `Timer` wake reason. -/
lemma destroyFold_clears (mwid : Nat) (l : List Nat) :
    ∀ (st : SchedState) (tid : Nat),
      ((tid ∈ l ∧ st.threadMW tid = some mwid) ∨
        (st.threadMW tid = none ∧ st.ready tid = true ∧
          st.wakeReason tid = .timer)) →
      (l.foldl (destroyVisit mwid) st).threadMW tid = none ∧
      (l.foldl (destroyVisit mwid) st).ready tid = true ∧
      (l.foldl (destroyVisit mwid) st).wakeReason tid = .timer := by
  induction l with
  | nil =>
    intro st tid h
    rcases h with ⟨hmem, -⟩ | h
    · exact absurd hmem (List.not_mem_nil tid)
    · exact h
  | cons t rest ih =>
    intro st tid h
    rw [List.foldl_cons]
    apply ih
    rcases h with ⟨hmem, href⟩ | ⟨h1, h2, h3⟩
    · by_cases ht : tid = t
      · subst ht
        right
        refine ⟨?_, ?_, ?_⟩
        · rw [destroyVisit_threadMW, if_pos ⟨href, rfl⟩]
        · rw [destroyVisit_ready, if_pos ⟨href, rfl⟩]
        · rw [destroyVisit_wakeReason, if_pos ⟨href, rfl⟩]
      · left
        have hmem' : tid ∈ rest := by
          rcases List.mem_cons.mp hmem with h1 | h1
          · exact absurd h1 ht
          · exact h1
        refine ⟨hmem', ?_⟩
        rw [destroyVisit_threadMW, if_neg (fun hc => ht hc.2)]
        exact href
    · right
      refine ⟨?_, ?_, ?_⟩
      · rw [destroyVisit_threadMW]
        by_cases hc : st.threadMW t = some mwid ∧ tid = t
        · rw [if_pos hc]
        · rw [if_neg hc]; exact h1
      · rw [destroyVisit_ready]
        by_cases hc : st.threadMW t = some mwid ∧ tid = t
        · rw [if_pos hc]
        · rw [if_neg hc]; exact h2
      · rw [destroyVisit_wakeReason]
        by_cases hc : st.threadMW t = some mwid ∧ tid = t
        · rw [if_pos hc]
        · rw [if_neg hc]; exact h3

/-- C1: the destructor first unlinks the dying multiwaiter from the
pending-wake list; every thread on the sleeping-thread list ends with a
recorded reference different from the dying multiwaiter, and every sleeping
thread that was referencing it ends with the reference cleared, the ready
flag set, and the timeout-style `Timer` wake reason. -/
theorem destroy_spec (s : SchedState) (mwid tid : Nat) :
    (MultiWaiter.destroy s mwid).pendingWake = s.pendingWake.erase mwid ∧
    (tid ∈ s.sleeping →
      (MultiWaiter.destroy s mwid).threadMW tid ≠ some mwid) ∧
    (tid ∈ s.sleeping → s.threadMW tid = some mwid →
      (MultiWaiter.destroy s mwid).threadMW tid = none ∧
      (MultiWaiter.destroy s mwid).ready tid = true ∧
      (MultiWaiter.destroy s mwid).wakeReason tid = .timer) := by
  refine ⟨?_, ?_, ?_⟩
  · rw [MultiWaiter.destroy, destroyFold_pendingWake]
    rfl
  · intro hmem hcontra
    by_cases href : s.threadMW tid = some mwid
    · have hnone := (destroyFold_clears mwid s.sleeping
        (removeFromPendingWake s mwid) tid (Or.inl ⟨hmem, href⟩)).1
      rw [MultiWaiter.destroy, removeFromPendingWake] at hcontra
      rw [removeFromPendingWake] at hnone
      rw [hnone] at hcontra
      cases hcontra
    · rw [MultiWaiter.destroy, removeFromPendingWake] at hcontra
      exact href (destroyFold_threadMW_mono mwid s.sleeping
        { s with pendingWake := s.pendingWake.erase mwid } tid mwid hcontra)
  · intro hmem href
    rw [MultiWaiter.destroy]
    exact destroyFold_clears mwid s.sleeping (removeFromPendingWake s mwid)
      tid (Or.inl ⟨hmem, href⟩)

/-- Witness for C1 at a concrete input: in `stEx` thread 0 sleeps on
multiwaiter 5; destroying multiwaiter 5 clears the reference, marks
thread 0 ready, and records the `Timer` wake reason. -/
theorem destroy_spec_witness :
    (MultiWaiter.destroy stEx 5).threadMW 0 = none ∧
    (MultiWaiter.destroy stEx 5).ready 0 = true ∧
    (MultiWaiter.destroy stEx 5).wakeReason 0 = .timer :=
  (destroy_spec stEx 5 0).2.2 (by decide) (by decide)

/-- The pending-wake walk touches only the multiwaiter objects: the ready
flags, the sleeping-thread list, the thread references, the pending-wake
list and the wake reasons are untouched. -/
lemma pendingFold_frame (k : EventWaiterKind)
    (f : EventWaiter → Bool × EventWaiter) (l : List Nat) :
    ∀ st : SchedState,
      (l.foldl (pendingStep k f) st).ready = st.ready ∧
      (l.foldl (pendingStep k f) st).sleeping = st.sleeping ∧
      (l.foldl (pendingStep k f) st).threadMW = st.threadMW ∧
      (l.foldl (pendingStep k f) st).pendingWake = st.pendingWake ∧
      (l.foldl (pendingStep k f) st).wakeReason = st.wakeReason := by
  induction l with
  | nil => intro st; exact ⟨rfl, rfl, rfl, rfl, rfl⟩
  | cons m rest ih => intro st; exact ih (pendingStep k f st m)

/-- Multiwaiters off the walked list are untouched by the pending-wake
walk. -/
lemma pendingFold_mws_notmem (k : EventWaiterKind)
    (f : EventWaiter → Bool × EventWaiter) (l : List Nat) :
    ∀ (st : SchedState) (m : Nat), m ∉ l →
      (l.foldl (pendingStep k f) st).mws m = st.mws m := by
  induction l with
  | nil => intro st m _; rfl
  | cons m0 rest ih =>
    intro st m hm
    have hne : m ≠ m0 := fun h => hm (h ▸ List.mem_cons_self _ _)
    have hrest : m ∉ rest := fun h => hm (List.mem_cons_of_mem _ h)
    rw [List.foldl_cons, ih _ _ hrest]
    simp [pendingStep, hne]

/-- On a duplicate-free pending-wake list, every listed multiwaiter receives
the trigger exactly once during the pending-wake walk. -/
lemma pendingFold_mws_mem (k : EventWaiterKind)
    (f : EventWaiter → Bool × EventWaiter) (l : List Nat) :
    ∀ st : SchedState, l.Nodup → ∀ m ∈ l,
      (l.foldl (pendingStep k f) st).mws m =
        ((st.mws m).triggerWith k f).2 := by
  induction l with
  | nil => intro st _ m hm; exact absurd hm (List.not_mem_nil m)
  | cons m0 rest ih =>
    intro st hnd m hm
    have hnd0 : m0 ∉ rest := (List.nodup_cons.mp hnd).1
    have hndr : rest.Nodup := (List.nodup_cons.mp hnd).2
    rw [List.foldl_cons]
    rcases List.mem_cons.mp hm with h1 | h2
    · subst h1
      rw [pendingFold_mws_notmem k f rest _ _ hnd0]
      simp [pendingStep]
    · have hne : m ≠ m0 := fun h => hnd0 (h ▸ h2)
      rw [ih _ hndr m h2]
      simp [pendingStep, hne]

/-- The selection of woken threads depends only on the eligibility of the
threads on the walked list. -/
lemma eligibleSelect_congr (maxWakes : Nat) (e1 e2 : Nat → Bool) :
    ∀ (l : List Nat) (n : Nat), (∀ t ∈ l, e1 t = e2 t) →
      eligibleSelect maxWakes e1 l n = eligibleSelect maxWakes e2 l n := by
  intro l
  induction l with
  | nil => intro n _; rfl
  | cons t rest ih =>
    intro n h
    have ht := h t (List.mem_cons_self _ _)
    have hrest : ∀ x ∈ rest, e1 x = e2 x := fun x hx =>
      h x (List.mem_cons_of_mem _ hx)
    by_cases hn : n ≥ maxWakes
    · simp [eligibleSelect, hn]
    · by_cases he : e2 t = true
      · simp [eligibleSelect, hn, ht, he, ih (n + 1) hrest]
      · have he1 : e1 t = false := by rw [ht]; simpa using he
        have he2 : e2 t = false := by simpa using he
        simp [eligibleSelect, hn, he1, he2, ih n hrest]

/-- Behaviour of the sleeping-thread walk of `wake_waiters`: the woken count
never exceeds `maxWakes`; thread references are untouched; the sleeping
list only shrinks; the pending-wake list only grows; the `MultiWaiter` wake
reason is sticky; and there is a list `newly` of woken threads such that
the count grows by its length, a thread is ready afterwards exactly when it
was ready before or is in `newly`, every newly woken thread was on the
walked list, carries the `MultiWaiter` wake reason, and has its recorded
multiwaiter pushed onto the pending-wake list — and, when the walked list
is duplicate-free and its threads reference pairwise distinct multiwaiters,
`newly` is exactly `eligibleSelect`: the eligible threads in list order up
to the cap, so every thread whose multiwaiter's trigger fires before the
cap is reached is woken. -/
lemma wakeLoop_spec (k : EventWaiterKind)
    (f : EventWaiter → Bool × EventWaiter) (maxWakes : Nat) (l : List Nat) :
    ∀ (st : SchedState) (woken : Nat),
      (woken ≤ maxWakes →
        (wakeLoop k f maxWakes l st woken).2 ≤ maxWakes) ∧
      (wakeLoop k f maxWakes l st woken).1.threadMW = st.threadMW ∧
      (∀ t ∈ (wakeLoop k f maxWakes l st woken).1.sleeping,
        t ∈ st.sleeping) ∧
      (∀ m ∈ st.pendingWake,
        m ∈ (wakeLoop k f maxWakes l st woken).1.pendingWake) ∧
      (∀ t, st.wakeReason t = .multiWaiter →
        (wakeLoop k f maxWakes l st woken).1.wakeReason t = .multiWaiter) ∧
      ∃ newly : List Nat,
        (wakeLoop k f maxWakes l st woken).2 = woken + newly.length ∧
        (∀ t, (wakeLoop k f maxWakes l st woken).1.ready t = true ↔
          (st.ready t = true ∨ t ∈ newly)) ∧
        (∀ t ∈ newly, t ∈ l ∧
          (wakeLoop k f maxWakes l st woken).1.wakeReason t =
            .multiWaiter ∧
          ∃ m, st.threadMW t = some m ∧
            m ∈ (wakeLoop k f maxWakes l st woken).1.pendingWake) ∧
        (l.Nodup →
          (∀ t1 ∈ l, ∀ t2 ∈ l, t1 ≠ t2 →
            st.threadMW t1 ≠ st.threadMW t2) →
          newly = eligibleSelect maxWakes (eligible st k f) l woken) := by
  induction l with
  | nil =>
    intro st woken
    refine ⟨fun h => h, rfl, fun t ht => ht, fun m hm => hm,
      fun t h => h, [], by simp [wakeLoop], fun t => by simp [wakeLoop],
      fun t ht => absurd ht (List.not_mem_nil t),
      fun _ _ => by simp [eligibleSelect]⟩
  | cons tid rest ih =>
    intro st woken
    by_cases hstop : woken ≥ maxWakes
    · have key : wakeLoop k f maxWakes (tid :: rest) st woken =
          (st, woken) := by
        simp [wakeLoop, hstop]
      rw [key]
      refine ⟨fun h => h, rfl, fun t ht => ht, fun m hm => hm,
        fun t h => h, [], by simp, fun t => by simp,
        fun t ht => absurd ht (List.not_mem_nil t),
        fun _ _ => by simp [eligibleSelect, hstop]⟩
    · cases hmw : st.threadMW tid with
      | none =>
        have key : wakeLoop k f maxWakes (tid :: rest) st woken =
            wakeLoop k f maxWakes rest st woken := by
          simp [wakeLoop, hstop, hmw]
        rw [key]
        obtain ⟨a, b, c, d, e, newly, g1, g2, g3, g4⟩ := ih st woken
        refine ⟨a, b, c, d, e, newly, g1, g2, ?_, ?_⟩
        · exact fun t ht =>
            ⟨List.mem_cons_of_mem _ (g3 t ht).1, (g3 t ht).2.1,
              (g3 t ht).2.2⟩
        · intro hnd hinj
          have hndr : rest.Nodup := (List.nodup_cons.mp hnd).2
          have hinjr : ∀ t1 ∈ rest, ∀ t2 ∈ rest, t1 ≠ t2 →
              st.threadMW t1 ≠ st.threadMW t2 := fun t1 h1 t2 h2 hne =>
            hinj t1 (List.mem_cons_of_mem _ h1) t2
              (List.mem_cons_of_mem _ h2) hne
          have heligt : eligible st k f tid = false := by
            simp [eligible, hmw]
          have hsel : eligibleSelect maxWakes (eligible st k f)
              (tid :: rest) woken =
              eligibleSelect maxWakes (eligible st k f) rest woken := by
            simp [eligibleSelect, hstop, heligt]
          rw [hsel]
          exact g4 hndr hinjr
      | some mwid =>
        by_cases hr : ((st.mws mwid).triggerWith k f).1 = true
        · have key : wakeLoop k f maxWakes (tid :: rest) st woken =
              wakeLoop k f maxWakes rest
                { st with
                  mws := fun m =>
                    if m = mwid then ((st.mws mwid).triggerWith k f).2
                    else st.mws m,
                  sleeping := st.sleeping.filter (fun t => t ≠ tid),
                  ready := fun t => if t = tid then true else st.ready t,
                  wakeReason := fun t =>
                    if t = tid then .multiWaiter else st.wakeReason t,
                  pendingWake := mwid :: st.pendingWake }
                (woken + 1) := by
            simp [wakeLoop, hstop, hmw, hr, threadReady]
          rw [key]
          set st3 : SchedState :=
            { st with
              mws := fun m =>
                if m = mwid then ((st.mws mwid).triggerWith k f).2
                else st.mws m,
              sleeping := st.sleeping.filter (fun t => t ≠ tid),
              ready := fun t => if t = tid then true else st.ready t,
              wakeReason := fun t =>
                if t = tid then .multiWaiter else st.wakeReason t,
              pendingWake := mwid :: st.pendingWake } with hst3
          obtain ⟨a, b, c, d, e, newly, g1, g2, g3, g4⟩ :=
            ih st3 (woken + 1)
          refine ⟨?_, b, ?_, ?_, ?_, tid :: newly, ?_, ?_, ?_, ?_⟩
          · intro h
            exact a (by omega)
          · intro t ht
            exact List.mem_of_mem_filter (c t ht)
          · intro m hm
            exact d m (List.mem_cons_of_mem _ hm)
          · intro t hwr
            apply e
            by_cases htid : t = tid <;> simp [hst3, htid, hwr]
          · rw [g1, List.length_cons]
            omega
          · intro t
            rw [g2 t]
            by_cases htid : t = tid
            · subst htid
              simp [hst3, List.mem_cons]
            · simp [hst3, htid, List.mem_cons]
          · intro t ht
            rcases List.mem_cons.mp ht with h1 | h2
            · subst h1
              refine ⟨List.mem_cons_self _ _, ?_, mwid, hmw, ?_⟩
              · exact e t (by simp [hst3])
              · exact d mwid (List.mem_cons_self _ _)
            · obtain ⟨hmem, hreas, m, hmwt, hpend⟩ := g3 t h2
              exact ⟨List.mem_cons_of_mem _ hmem, hreas, m, hmwt, hpend⟩
          · intro hnd hinj
            have htid_nin : tid ∉ rest := (List.nodup_cons.mp hnd).1
            have hndr : rest.Nodup := (List.nodup_cons.mp hnd).2
            have hinj3 : ∀ t1 ∈ rest, ∀ t2 ∈ rest, t1 ≠ t2 →
                st3.threadMW t1 ≠ st3.threadMW t2 := by
              intro t1 h1 t2 h2 hne
              have hs := hinj t1 (List.mem_cons_of_mem _ h1) t2
                (List.mem_cons_of_mem _ h2) hne
              simpa [hst3] using hs
            have hcongr : ∀ t ∈ rest,
                eligible st3 k f t = eligible st k f t := by
              intro t ht
              have htne : t ≠ tid := fun he => htid_nin (he ▸ ht)
              cases hm2 : st.threadMW t with
              | none => simp [eligible, hst3, hm2]
              | some m =>
                have hne_m : m ≠ mwid := by
                  intro he
                  subst he
                  exact hinj t (List.mem_cons_of_mem _ ht) tid
                    (List.mem_cons_self _ _) htne (by rw [hm2, hmw])
                simp [eligible, hst3, hm2, hne_m]
            have heligt : eligible st k f tid = true := by
              simp [eligible, hmw, hr]
            have hsel : eligibleSelect maxWakes (eligible st k f)
                (tid :: rest) woken =
                tid :: eligibleSelect maxWakes (eligible st k f) rest
                  (woken + 1) := by
              simp [eligibleSelect, hstop, heligt]
            have hnewly : newly =
                eligibleSelect maxWakes (eligible st k f) rest
                  (woken + 1) :=
              (g4 hndr hinj3).trans
                (eligibleSelect_congr maxWakes (eligible st3 k f)
                  (eligible st k f) rest (woken + 1) hcongr)
            rw [hsel, hnewly]
        · have key : wakeLoop k f maxWakes (tid :: rest) st woken =
              wakeLoop k f maxWakes rest
                { st with
                  mws := fun m =>
                    if m = mwid then ((st.mws mwid).triggerWith k f).2
                    else st.mws m }
                woken := by
            simp [wakeLoop, hstop, hmw, hr]
          rw [key]
          set st1 : SchedState :=
            { st with
              mws := fun m =>
                if m = mwid then ((st.mws mwid).triggerWith k f).2
                else st.mws m } with hst1
          obtain ⟨a, b, c, d, e, newly, g1, g2, g3, g4⟩ := ih st1 woken
          refine ⟨a, b, c, d, e, newly, g1, g2, ?_, ?_⟩
          · exact fun t ht =>
              ⟨List.mem_cons_of_mem _ (g3 t ht).1, (g3 t ht).2.1,
                (g3 t ht).2.2⟩
          · intro hnd hinj
            have htid_nin : tid ∉ rest := (List.nodup_cons.mp hnd).1
            have hndr : rest.Nodup := (List.nodup_cons.mp hnd).2
            have hinj1 : ∀ t1 ∈ rest, ∀ t2 ∈ rest, t1 ≠ t2 →
                st1.threadMW t1 ≠ st1.threadMW t2 := by
              intro t1 h1 t2 h2 hne
              have hs := hinj t1 (List.mem_cons_of_mem _ h1) t2
                (List.mem_cons_of_mem _ h2) hne
              simpa [hst1] using hs
            have hcongr : ∀ t ∈ rest,
                eligible st1 k f t = eligible st k f t := by
              intro t ht
              have htne : t ≠ tid := fun he => htid_nin (he ▸ ht)
              cases hm2 : st.threadMW t with
              | none => simp [eligible, hst1, hm2]
              | some m =>
                have hne_m : m ≠ mwid := by
                  intro he
                  subst he
                  exact hinj t (List.mem_cons_of_mem _ ht) tid
                    (List.mem_cons_self _ _) htne (by rw [hm2, hmw])
                simp [eligible, hst1, hm2, hne_m]
            have heligt : eligible st k f tid = false := by
              have hr2 : ((st.mws mwid).triggerWith k f).1 = false := by
                simpa using hr
              simp [eligible, hmw, hr2]
            have hsel : eligibleSelect maxWakes (eligible st k f)
                (tid :: rest) woken =
                eligibleSelect maxWakes (eligible st k f) rest woken := by
              simp [eligibleSelect, hstop, heligt]
            have hnewly : newly =
                eligibleSelect maxWakes (eligible st k f) rest woken :=
              (g4 hndr hinj1).trans
                (eligibleSelect_congr maxWakes (eligible st1 k f)
                  (eligible st k f) rest woken hcongr)
            rw [hsel, hnewly]

/-- C2: `wake_waiters` walks the pending-wake list first, triggering each
listed multiwaiter exactly once without marking any thread ready, without
counting, and without touching the thread lists; only the subsequent
sleeping-list walk wakes threads: the returned count equals the number of
newly woken threads and never exceeds `maxWakes`, every newly woken thread
was sleeping, is woken with the `MultiWaiter` reason, and its multiwaiter
is pushed onto the pending-wake list — and, for a duplicate-free sleeping
list whose threads reference pairwise distinct multiwaiters (the one
waiting owner per multiwaiter discipline), the woken threads are exactly
`eligibleSelect`: the threads whose multiwaiter's trigger fires, taken in
sleeping-list order until the counter reaches `maxWakes`, so every
eligible thread encountered before the cap is marked ready, counted, and
has its multiwaiter pushed. -/
theorem wake_waiters_spec (s : SchedState) (k : EventWaiterKind)
    (f : EventWaiter → Bool × EventWaiter) (maxWakes : Nat) :
    (wake_waiters s k f maxWakes).2 ≤ maxWakes ∧
    (triggerPendingPhase s k f).ready = s.ready ∧
    (triggerPendingPhase s k f).sleeping = s.sleeping ∧
    (triggerPendingPhase s k f).threadMW = s.threadMW ∧
    (triggerPendingPhase s k f).pendingWake = s.pendingWake ∧
    (triggerPendingPhase s k f).wakeReason = s.wakeReason ∧
    (s.pendingWake.Nodup → ∀ m ∈ s.pendingWake,
      (triggerPendingPhase s k f).mws m = ((s.mws m).triggerWith k f).2) ∧
    ∃ newly : List Nat,
      (wake_waiters s k f maxWakes).2 = newly.length ∧
      (∀ t, (wake_waiters s k f maxWakes).1.ready t = true ↔
        (s.ready t = true ∨ t ∈ newly)) ∧
      (∀ t ∈ newly, t ∈ s.sleeping ∧
        (wake_waiters s k f maxWakes).1.wakeReason t = .multiWaiter ∧
        ∃ m, s.threadMW t = some m ∧
          m ∈ (wake_waiters s k f maxWakes).1.pendingWake) ∧
      (s.sleeping.Nodup →
        (∀ t1 ∈ s.sleeping, ∀ t2 ∈ s.sleeping, t1 ≠ t2 →
          s.threadMW t1 ≠ s.threadMW t2) →
        newly = eligibleSelect maxWakes
          (eligible (triggerPendingPhase s k f) k f) s.sleeping 0) := by
  obtain ⟨f1, f2, f3, f4, f5⟩ := pendingFold_frame k f s.pendingWake s
  have f1' : (triggerPendingPhase s k f).ready = s.ready := f1
  have f2' : (triggerPendingPhase s k f).sleeping = s.sleeping := f2
  have f3' : (triggerPendingPhase s k f).threadMW = s.threadMW := f3
  obtain ⟨a, b, c, d, e, newly, g1, g2, g3, g4⟩ :=
    wakeLoop_spec k f maxWakes (triggerPendingPhase s k f).sleeping
      (triggerPendingPhase s k f) 0
  refine ⟨a (Nat.zero_le _), f1', f2', f3', f4, f5,
    fun hnd m hm => pendingFold_mws_mem k f s.pendingWake s hnd m hm,
    newly, g1.trans (Nat.zero_add _), ?_, ?_, ?_⟩
  · intro t
    have hg := g2 t
    rw [f1'] at hg
    exact hg
  · intro t ht
    obtain ⟨hmem, hreas, m, hmwt, hpend⟩ := g3 t ht
    rw [f2'] at hmem
    rw [f3'] at hmwt
    exact ⟨hmem, hreas, m, hmwt, hpend⟩
  · intro hnd hinj
    have hnd1 : (triggerPendingPhase s k f).sleeping.Nodup := by
      rw [f2']; exact hnd
    have hinj1 : ∀ t1 ∈ (triggerPendingPhase s k f).sleeping,
        ∀ t2 ∈ (triggerPendingPhase s k f).sleeping, t1 ≠ t2 →
        (triggerPendingPhase s k f).threadMW t1 ≠
          (triggerPendingPhase s k f).threadMW t2 := by
      simp only [f2', f3']
      exact hinj
    have hg := g4 hnd1 hinj1
    rw [f2'] at hg
    exact hg

/-- Witness for C2 at a concrete input: in `stWake`, thread 0 sleeps on
multiwaiter 5, whose futex slot watches address 9; a futex trigger for
address 9 with `maxWakes = 1` actually wakes thread 0, and wakes at most
one thread. -/
theorem wake_waiters_spec_witness :
    (wake_waiters stWake .futex (fun w => w.triggerFutex 9) 1).1.ready 0 =
      true ∧
    (wake_waiters stWake .futex (fun w => w.triggerFutex 9) 1).2 ≤ 1 := by
  obtain ⟨hcap, -, -, -, -, -, -, newly, -, hready, -, hchar⟩ :=
    wake_waiters_spec stWake .futex (fun w => w.triggerFutex 9) 1
  have hsel : newly = [0] := by
    rw [hchar (by decide) (by decide)]
    decide
  refine ⟨?_, hcap⟩
  rw [hready 0, hsel]
  right
  simp

/-- One destructor visit preserves the sleeping-reference invariant: it
clears a reference only while removing that same thread from the sleeping
list. -/
lemma destroyVisit_sleepInv (mwid : Nat) (st : SchedState) (t : Nat)
    (h : sleepInvB st = true) :
    sleepInvB (destroyVisit mwid st t) = true := by
  rw [sleepInvB, List.all_eq_true] at h ⊢
  intro tid hmem
  by_cases hc : st.threadMW t = some mwid
  · have hmem' : tid ∈ st.sleeping.filter (fun x => x ≠ t) := by
      simpa [destroyVisit, threadReady, hc] using hmem
    have h1 := List.mem_filter.mp hmem'
    have hne : tid ≠ t := by simpa using h1.2
    simpa [destroyVisit, threadReady, hc, hne] using h tid h1.1
  · have hmem' : tid ∈ st.sleeping := by
      simpa [destroyVisit, hc] using hmem
    simpa [destroyVisit, hc] using h tid hmem'

/-- The whole destructor walk preserves the sleeping-reference invariant. -/
lemma destroyFold_sleepInv (mwid : Nat) (l : List Nat) :
    ∀ st : SchedState, sleepInvB st = true →
      sleepInvB (l.foldl (destroyVisit mwid) st) = true := by
  induction l with
  | nil => intro st h; exact h
  | cons t rest ih =>
    intro st h
    exact ih _ (destroyVisit_sleepInv mwid st t h)

/-- The sleeping-list walk of `wake_waiters` preserves the
sleeping-reference invariant: it never touches thread references and only
removes threads from the sleeping list. -/
lemma wakeLoop_sleepInv (k : EventWaiterKind)
    (f : EventWaiter → Bool × EventWaiter) (maxWakes : Nat) (l : List Nat)
    (st : SchedState) (woken : Nat) (h : sleepInvB st = true) :
    sleepInvB (wakeLoop k f maxWakes l st woken).1 = true := by
  obtain ⟨-, hB, hC, -, -, -⟩ := wakeLoop_spec k f maxWakes l st woken
  rw [sleepInvB, List.all_eq_true] at h ⊢
  intro t ht
  rw [hB]
  exact h t (hC t ht)

/-- C10: every thread on the sleeping-thread list has a non-null recorded
multiwaiter reference, and every operation of the core preserves this:
`wait` records the reference before suspending, the resumed thread clears
it only once it is off the list, `Thread::ready` only removes threads from
the list, the destructor clears a reference only while simultaneously
marking that thread ready, and `wake_waiters` never touches references —
which is what makes its unconditional dereference of each sleeping
thread's multiwaiter safe. -/
theorem sleeping_ref_invariant (s : SchedState) (h : sleepInvB s = true) :
    (∀ tid mwid, sleepInvB (waitEnter s tid mwid) = true) ∧
    (∀ tid, tid ∉ s.sleeping → sleepInvB (waitExit s tid) = true) ∧
    (∀ tid r, sleepInvB (threadReady s tid r) = true) ∧
    (∀ mwid, sleepInvB (MultiWaiter.destroy s mwid) = true) ∧
    (∀ k f n, sleepInvB (wake_waiters s k f n).1 = true) ∧
    (∀ tid ∈ s.sleeping, ∃ m, s.threadMW tid = some m) := by
  rw [sleepInvB, List.all_eq_true] at h
  refine ⟨?_, ?_, ?_, ?_, ?_, ?_⟩
  · intro tid mwid
    rw [sleepInvB, List.all_eq_true]
    intro t ht
    have ht' : t = tid ∨ t ∈ s.sleeping := by
      simpa [waitEnter] using ht
    by_cases h2 : t = tid
    · simp [waitEnter, h2]
    · rcases ht' with h1 | h1
      · exact absurd h1 h2
      · simpa [waitEnter, h2] using h t h1
  · intro tid hnot
    rw [sleepInvB, List.all_eq_true]
    intro t ht
    have ht' : t ∈ s.sleeping := by simpa [waitExit] using ht
    have hne : t ≠ tid := fun he => hnot (he ▸ ht')
    simpa [waitExit, hne] using h t ht'
  · intro tid r
    rw [sleepInvB, List.all_eq_true]
    intro t ht
    have hmem' : t ∈ s.sleeping.filter (fun x => x ≠ tid) := by
      simpa [threadReady] using ht
    have h1 := List.mem_filter.mp hmem'
    simpa [threadReady] using h t h1.1
  · intro mwid
    have hpre : sleepInvB (removeFromPendingWake s mwid) = true := by
      rw [sleepInvB, List.all_eq_true]
      intro t ht
      exact h t ht
    exact destroyFold_sleepInv mwid
      (removeFromPendingWake s mwid).sleeping
      (removeFromPendingWake s mwid) hpre
  · intro k f n
    obtain ⟨-, f2, f3, -, -⟩ := pendingFold_frame k f s.pendingWake s
    have f2' : (triggerPendingPhase s k f).sleeping = s.sleeping := f2
    have f3' : (triggerPendingPhase s k f).threadMW = s.threadMW := f3
    have hpre : sleepInvB (triggerPendingPhase s k f) = true := by
      rw [sleepInvB, List.all_eq_true]
      intro t ht
      rw [f2'] at ht
      rw [f3']
      exact h t ht
    exact wakeLoop_sleepInv k f n (triggerPendingPhase s k f).sleeping
      (triggerPendingPhase s k f) 0 hpre
  · intro tid ht
    have h1 := h tid ht
    cases hm : s.threadMW tid with
    | none => rw [hm] at h1; cases h1
    | some m => exact ⟨m, rfl⟩

/-- Witness for C10 at a concrete input: `stEx` satisfies the invariant and
still does after destroying multiwaiter 5. -/
theorem sleeping_ref_invariant_witness :
    sleepInvB stEx = true ∧
    sleepInvB (MultiWaiter.destroy stEx 5) = true :=
  ⟨by decide, (sleeping_ref_invariant stEx (by decide)).2.2.2.1 5⟩

end Sched
